import Mathlib

/-
Verification development for the Google-Workspace-MCP-Server repository.

The source is Python (src/app.py, src/mcp_server.py, src/config.py,
src/get_credentials.py).  Pure functions are translated into Lean
definitions; the Redis key-value store and the token file are modelled by
explicit state passing; external libraries (the Fernet cipher of the
cryptography package, json serialization, the Google OAuth token endpoint)
are modelled by bundled interfaces carrying exactly their documented
contracts, so that every theorem is parametric in the external behaviour
and every witness instantiates a small executable model.
-/

/-- Error taxonomy used by the spec: AuthenticationRequired (no usable
credential), Unauthorized (bearer token missing or invalid), CryptoError
(decryption failed). -/
inductive AppError where
  | authenticationRequired : AppError
  | unauthorized : AppError
  | cryptoError : AppError
deriving DecidableEq, Repr

/-- Model of the external Fernet cipher (cryptography.fernet.Fernet) used by
SecurityManager in src/app.py.  Fernet is authenticated symmetric
encryption; its documented contract is: decrypting a token produced by
encrypt under the same key returns the original plaintext, and decrypt
succeeds only on tokens that were produced by encrypt under that key
(otherwise it raises InvalidToken). -/
structure FernetCipher where
  encrypt : String → String
  decrypt : String → Option String
  roundtrip : ∀ s, decrypt (encrypt s) = some s
  authenticated : ∀ c s, decrypt c = some s → encrypt s = c

/-- SecurityManager.encrypt_data (src/app.py:80-83): encrypts a string with
the module-level cipher_suite.  The Python .encode()/.decode() pair moves
between str and bytes and is modelled as the identity. -/
def encrypt_data (F : FernetCipher) (data : String) : String :=
  F.encrypt data

/-- SecurityManager.decrypt_data (src/app.py:85-88): decrypts a string with
the module-level cipher_suite; a Fernet InvalidToken exception is the
CryptoError of the spec. -/
def decrypt_data (F : FernetCipher) (encrypted : String) : Except AppError String :=
  match F.decrypt encrypted with
  | some p => Except.ok p
  | none => Except.error AppError.cryptoError

/-- A small executable instance of the Fernet interface, used by witnesses:
encryption tags the plaintext with a leading marker character, decryption
accepts exactly the tagged strings. -/
def toyFernet : FernetCipher where
  encrypt s := String.mk ('F' :: s.data)
  decrypt c :=
    match c.data with
    | 'F' :: rest => some (String.mk rest)
    | _ => none
  roundtrip s := by
    cases s
    rfl
  authenticated c s h := by
    cases c with
    | mk data =>
      cases data with
      | nil => exact absurd h (by simp)
      | cons a rest =>
        by_cases ha : a = 'F'
        · subst ha
          simp only at h
          cases h
          rfl
        · exact absurd h (by simp [ha])

/-- C5: decrypt is a left inverse of encrypt on every string (including the
empty string and strings containing key material: the statement quantifies
over all strings). -/
theorem decrypt_encrypt_roundtrip (F : FernetCipher) (x : String) :
    decrypt_data F (encrypt_data F x) = Except.ok x := by
  simp [decrypt_data, encrypt_data, F.roundtrip]

/-- C5 witness: the round trip evaluated on a concrete cipher and string. -/
theorem decrypt_encrypt_roundtrip_witness :
    decrypt_data toyFernet (encrypt_data toyFernet "secret key material") =
      Except.ok "secret key material" :=
  decrypt_encrypt_roundtrip toyFernet "secret key material"

/-- C6: any ciphertext that is not the encryption of some plaintext under
the current key is rejected by decrypt with CryptoError; decrypt never
returns a plaintext for it. -/
theorem decrypt_tampered_fails (F : FernetCipher) (c : String)
    (h : ∀ x, encrypt_data F x ≠ c) :
    decrypt_data F c = Except.error AppError.cryptoError := by
  unfold decrypt_data
  cases hd : F.decrypt c with
  | none => rfl
  | some p => exact absurd (F.authenticated c p hd) (h p)

/-- C6 witness: the empty string is not a ciphertext of the concrete cipher
(every ciphertext is nonempty), and decrypt rejects it. -/
theorem decrypt_tampered_fails_witness :
    (∀ x, encrypt_data toyFernet x ≠ "") ∧
      decrypt_data toyFernet "" = Except.error AppError.cryptoError := by
  have h : ∀ x, encrypt_data toyFernet x ≠ "" := by
    intro x hx
    exact absurd (congrArg String.data hx) (by simp [encrypt_data, toyFernet])
  exact ⟨h, decrypt_tampered_fails toyFernet "" h⟩

/-- The credential bundle stored by RedisManager.store_user_credentials
(src/app.py:109-117): token, refresh_token, token_uri, client_id,
client_secret, scopes and expiry (the expiry is kept as a UTC timestamp;
Python serializes it as an isoformat string, isomorphic for our purposes). -/
structure Credentials where
  token : String
  refreshToken : Option String
  tokenUri : Option String
  clientId : Option String
  clientSecret : Option String
  scopes : List String
  expiry : Option Int
deriving DecidableEq, Repr

/-- Serialization of one string field: every character is tagged, a
terminator closes the field (model of a JSON string member). -/
def encStr (l : List Char) : List Char :=
  (l.flatMap fun c => ['C', c]) ++ ['E']

/-- Deserialization of one string field, returning the field and the rest
of the input. -/
def decStr : List Char → Option (List Char × List Char)
  | 'C' :: c :: rest =>
    match decStr rest with
    | some (v, r) => some (c :: v, r)
    | none => none
  | 'E' :: rest => some ([], rest)
  | _ => none

theorem decStr_encStr (l r : List Char) : decStr (encStr l ++ r) = some (l, r) := by
  induction l with
  | nil => rfl
  | cons c t ih =>
    simp only [encStr, List.flatMap_cons, List.append_assoc, List.cons_append,
      List.nil_append, List.singleton_append] at ih ⊢
    simp [decStr, ih]

/-- Serialization of an optional string field. -/
def encOptS : Option (List Char) → List Char
  | none => ['N']
  | some l => 'J' :: encStr l

/-- Deserialization of an optional string field. -/
def decOptS : List Char → Option (Option (List Char) × List Char)
  | 'N' :: rest => some (none, rest)
  | 'J' :: rest =>
    match decStr rest with
    | some (v, r) => some (some v, r)
    | none => none
  | _ => none

theorem decOptS_encOptS (o : Option (List Char)) (r : List Char) :
    decOptS (encOptS o ++ r) = some (o, r) := by
  cases o with
  | none => rfl
  | some l => simp [encOptS, decOptS, decStr_encStr]

/-- Unary serialization of a natural number. -/
def encNatU (n : Nat) : List Char :=
  List.replicate n 'I' ++ ['Z']

/-- Deserialization of a natural number. -/
def decNatU : List Char → Option (Nat × List Char)
  | 'I' :: rest =>
    match decNatU rest with
    | some (n, r) => some (n + 1, r)
    | none => none
  | 'Z' :: rest => some (0, rest)
  | _ => none

theorem decNatU_encNatU (n : Nat) (r : List Char) :
    decNatU (encNatU n ++ r) = some (n, r) := by
  induction n with
  | zero => rfl
  | succ k ih =>
    simp only [encNatU, List.append_assoc, List.singleton_append] at ih ⊢
    simp only [List.replicate_succ, List.cons_append]
    simp [decNatU, ih]

/-- Serialization of an integer (sign plus magnitude). -/
def encInt (i : Int) : List Char :=
  if i < 0 then '-' :: encNatU (-i).toNat else '+' :: encNatU i.toNat

/-- Deserialization of an integer. -/
def decInt : List Char → Option (Int × List Char)
  | '-' :: rest =>
    match decNatU rest with
    | some (n, r) => some (-(n : Int), r)
    | none => none
  | '+' :: rest =>
    match decNatU rest with
    | some (n, r) => some ((n : Int), r)
    | none => none
  | _ => none

theorem decInt_encInt (i : Int) (r : List Char) :
    decInt (encInt i ++ r) = some (i, r) := by
  by_cases hi : i < 0
  · have h1 : ((-i).toNat : Int) = -i := Int.toNat_of_nonneg (by omega)
    simp [encInt, decInt, hi, decNatU_encNatU, h1]
  · have h1 : (i.toNat : Int) = i := Int.toNat_of_nonneg (by omega)
    simp [encInt, decInt, hi, decNatU_encNatU, h1]

/-- Serialization of an optional integer field. -/
def encOptI : Option Int → List Char
  | none => ['N']
  | some i => 'J' :: encInt i

/-- Deserialization of an optional integer field. -/
def decOptI : List Char → Option (Option Int × List Char)
  | 'N' :: rest => some (none, rest)
  | 'J' :: rest =>
    match decInt rest with
    | some (v, r) => some (some v, r)
    | none => none
  | _ => none

theorem decOptI_encOptI (o : Option Int) (r : List Char) :
    decOptI (encOptI o ++ r) = some (o, r) := by
  cases o with
  | none => rfl
  | some i => simp [encOptI, decOptI, decInt_encInt]

/-- Serialization of a list of strings: a length header followed by the
fields in order. -/
def encListS (xs : List (List Char)) : List Char :=
  encNatU xs.length ++ xs.flatMap encStr

/-- Deserialization of a counted sequence of string fields. -/
def decStrs : Nat → List Char → Option (List (List Char) × List Char)
  | 0, r => some ([], r)
  | n + 1, r =>
    match decStr r with
    | some (v, r2) =>
      match decStrs n r2 with
      | some (vs, r3) => some (v :: vs, r3)
      | none => none
    | none => none

theorem decStrs_encs (xs : List (List Char)) (r : List Char) :
    decStrs xs.length (xs.flatMap encStr ++ r) = some (xs, r) := by
  induction xs with
  | nil => rfl
  | cons x t ih =>
    simp only [List.flatMap_cons, List.append_assoc, List.length_cons]
    simp [decStrs, decStr_encStr, ih]

/-- Deserialization of a list of strings. -/
def decListS (l : List Char) : Option (List (List Char) × List Char) :=
  match decNatU l with
  | some (n, r) => decStrs n r
  | none => none

theorem decListS_encListS (xs : List (List Char)) (r : List Char) :
    decListS (encListS xs ++ r) = some (xs, r) := by
  simp [decListS, encListS, List.append_assoc, decNatU_encNatU, decStrs_encs]

theorem strMk_data (s : String) : String.mk s.data = s := by
  cases s
  rfl

theorem mapMkData (o : Option String) :
    Option.map String.mk (Option.map String.data o) = o := by
  cases o <;> simp [strMk_data]

theorem listMkData (l : List String) :
    (l.map String.data).map String.mk = l := by
  induction l with
  | nil => rfl
  | cons s t ih => simp [strMk_data, ih]

theorem optMapMkData (o : Option String) :
    Option.map (String.mk ∘ String.data) o = o := by
  cases o <;> simp [Function.comp, strMk_data]

theorem listMapMkData (l : List String) :
    List.map (String.mk ∘ String.data) l = l := by
  induction l with
  | nil => rfl
  | cons s t ih => simp [Function.comp, strMk_data, ih]

/-- Model of json.dumps applied to the creds_data dictionary built by
RedisManager.store_user_credentials (src/app.py:109-119): an injective
serialization of the seven fields, in the order the dictionary lists them. -/
def encodeCreds (c : Credentials) : String :=
  String.mk (encStr c.token.data ++ encOptS (c.refreshToken.map String.data) ++
    encOptS (c.tokenUri.map String.data) ++ encOptS (c.clientId.map String.data) ++
    encOptS (c.clientSecret.map String.data) ++ encListS (c.scopes.map String.data) ++
    encOptI c.expiry)

/-- Model of json.loads as used by RedisManager.get_user_credentials
(src/app.py:140-153): parses the seven fields back; any malformed input
yields none (in Python, a raised exception). -/
def decodeCreds (s : String) : Option Credentials :=
  match decStr s.data with
  | none => none
  | some (tok, r1) =>
    match decOptS r1 with
    | none => none
    | some (rt, r2) =>
      match decOptS r2 with
      | none => none
      | some (tu, r3) =>
        match decOptS r3 with
        | none => none
        | some (ci, r4) =>
          match decOptS r4 with
          | none => none
          | some (cs, r5) =>
            match decListS r5 with
            | none => none
            | some (sc, r6) =>
              match decOptI r6 with
              | none => none
              | some (ex, r7) =>
                if r7 = ([] : List Char) then
                  some { token := String.mk tok, refreshToken := rt.map String.mk,
                         tokenUri := tu.map String.mk, clientId := ci.map String.mk,
                         clientSecret := cs.map String.mk, scopes := sc.map String.mk,
                         expiry := ex }
                else none

theorem decOptI_encOptI_nil (o : Option Int) : decOptI (encOptI o) = some (o, []) := by
  have h := decOptI_encOptI o []
  simpa using h

theorem decodeCreds_encodeCreds (c : Credentials) :
    decodeCreds (encodeCreds c) = some c := by
  obtain ⟨tok, rt, tu, ci, cs, sc, ex⟩ := c
  simp only [decodeCreds, encodeCreds, List.append_assoc, decStr_encStr,
    decOptS_encOptS, decListS_encListS, decOptI_encOptI_nil]
  simp [strMk_data, mapMkData, listMkData, optMapMkData, listMapMkData]

/-- The Redis database is modelled as a map from keys to a value together
with its absolute expiry instant (setex stores with a time-to-live). -/
abbrev RedisState : Type := String → Option (String × Int)

def emptyRedis : RedisState := fun _ => none

/-- redis setex: write a value under a key with a time-to-live (the prior
record under that key, if any, is overwritten). -/
def redisSetex (st : RedisState) (now ttl : Int) (k v : String) : RedisState :=
  fun q => if q = k then some (v, now + ttl) else st q

/-- redis get: a record is returned only while its TTL has not elapsed. -/
def redisGet (st : RedisState) (now : Int) (k : String) : Option String :=
  match st k with
  | some pr => if now < pr.2 then some pr.1 else none
  | none => none

/-- redis delete. -/
def redisDel (st : RedisState) (k : String) : RedisState :=
  fun q => if q = k then none else st q

/-- SESSION_DURATION (src/app.py:74): 24 hours, in seconds. -/
def SESSION_DURATION : Int := 86400

/-- The Redis key used for a user's credential record
(src/app.py:121): the user id enters only through its hash. -/
def credsKey (hashId : String → String) (userId : String) : String :=
  "user_creds:" ++ hashId userId

/-- RedisManager.store_user_credentials (src/app.py:104-128): serializes the
credential fields, encrypts, and writes under the hashed-user-id key with
the session TTL.  hashId models SecurityManager.hash_user_id (sha256
hexdigest, an external hash function). -/
def store_user_credentials (F : FernetCipher) (hashId : String → String)
    (st : RedisState) (now : Int) (userId : String) (c : Credentials) : RedisState :=
  redisSetex st now SESSION_DURATION (credsKey hashId userId)
    (encrypt_data F (encodeCreds c))

/-- The reconstruction step of RedisManager.get_user_credentials
(src/app.py:143-153): a Credentials object is rebuilt from the parsed
fields, and expiry is set only when the stored expiry is present. -/
def rebuildCreds (cd : Credentials) : Credentials :=
  { token := cd.token, refreshToken := cd.refreshToken, tokenUri := cd.tokenUri,
    clientId := cd.clientId, clientSecret := cd.clientSecret, scopes := cd.scopes,
    expiry := match cd.expiry with
      | some e => some e
      | none => none }

theorem rebuildCreds_eq (cd : Credentials) : rebuildCreds cd = cd := by
  obtain ⟨tok, rt, tu, ci, cs, sc, ex⟩ := cd
  cases ex <;> rfl

/-- RedisManager.get_user_credentials (src/app.py:130-158): looks up the
record, decrypts, parses and rebuilds the credential.  The whole body is
wrapped in a try/except that logs and returns None, so a decryption or
deserialization failure is converted to None (the absent result). -/
def get_user_credentials (F : FernetCipher) (hashId : String → String)
    (st : RedisState) (now : Int) (userId : String) : Option Credentials :=
  match redisGet st now (credsKey hashId userId) with
  | none => none
  | some enc =>
    match F.decrypt enc with
    | none => none
    | some d =>
      match decodeCreds d with
      | none => none
      | some cd => some (rebuildCreds cd)

/-- C7: put followed by get returns the stored credential while the TTL has
not elapsed, and a second put for the same user overwrites the first
(last-write-wins). -/
theorem credentialStore_put_get_roundtrip (F : FernetCipher)
    (hashId : String → String) (st : RedisState) (now now2 : Int)
    (userId : String) (c c2 : Credentials)
    (h : now2 < now + SESSION_DURATION) :
    get_user_credentials F hashId (store_user_credentials F hashId st now userId c)
        now2 userId = some c
    ∧ get_user_credentials F hashId
        (store_user_credentials F hashId
          (store_user_credentials F hashId st now userId c) now userId c2)
        now2 userId = some c2 := by
  constructor <;>
    simp [get_user_credentials, store_user_credentials, redisGet, redisSetex, h,
      encrypt_data, F.roundtrip, decodeCreds_encodeCreds, rebuildCreds_eq]

def demoCreds : Credentials :=
  { token := "t", refreshToken := some "r", tokenUri := some "u", clientId := none,
    clientSecret := none, scopes := ["s1", "s2"], expiry := some 5 }

def demoCreds2 : Credentials :=
  { token := "t2", refreshToken := none, tokenUri := none, clientId := none,
    clientSecret := none, scopes := [], expiry := none }

/-- C7 witness: the round trip and the overwrite evaluated on a concrete
store, cipher, hash and credential pair. -/
theorem credentialStore_put_get_roundtrip_witness :
    ((1 : Int) < 0 + SESSION_DURATION)
    ∧ get_user_credentials toyFernet (fun s => s)
        (store_user_credentials toyFernet (fun s => s) emptyRedis 0 "u" demoCreds)
        1 "u" = some demoCreds
    ∧ get_user_credentials toyFernet (fun s => s)
        (store_user_credentials toyFernet (fun s => s)
          (store_user_credentials toyFernet (fun s => s) emptyRedis 0 "u" demoCreds)
          0 "u" demoCreds2)
        1 "u" = some demoCreds2 := by
  have h := credentialStore_put_get_roundtrip toyFernet (fun s => s) emptyRedis 0 1
    "u" demoCreds demoCreds2 (by decide)
  exact ⟨by decide, h.1, h.2⟩

/-- C3 as the code actually behaves (amended): when the record exists and is
unexpired but decryption or deserialization of it fails, get_user_credentials
returns None (the absent result) — the try/except of src/app.py:133-158
catches the error and converts it, instead of raising a StorageError. -/
theorem getUserCredentials_errors_become_absent (F : FernetCipher)
    (hashId : String → String) (st : RedisState) (now : Int) (userId v : String)
    (hrec : redisGet st now (credsKey hashId userId) = some v)
    (hbad : F.decrypt v = none ∨ ∃ d, F.decrypt v = some d ∧ decodeCreds d = none) :
    get_user_credentials F hashId st now userId = none := by
  unfold get_user_credentials
  rw [hrec]
  rcases hbad with h | ⟨d, h1, h2⟩
  · simp [h]
  · simp [h1, h2]

def corruptState : RedisState :=
  redisSetex emptyRedis 0 SESSION_DURATION "user_creds:u" "garbage"

/-- C3 counterexample: a record that exists and is unexpired but does not
decrypt is reported as absent (None), not as a StorageError, contradicting
the claim that the error is never silently converted into the absent
result. -/
theorem getUserCredentials_decryptFailure_absent_cex :
    redisGet corruptState 1 (credsKey (fun s => s) "u") = some "garbage"
    ∧ toyFernet.decrypt "garbage" = none
    ∧ get_user_credentials toyFernet (fun s => s) corruptState 1 "u" = none := by
  refine ⟨by decide, by decide, by decide⟩

/-- C3 witness for the amended theorem, on the same concrete corrupt
record. -/
theorem getUserCredentials_errors_become_absent_witness :
    get_user_credentials toyFernet (fun s => s) corruptState 1 "u" = none :=
  getUserCredentials_errors_become_absent toyFernet (fun s => s) corruptState 1 "u"
    "garbage" (by decide) (Or.inl (by decide))

/-- The Redis key used for a session record (src/app.py:165). -/
def sessionKey (token : String) : String :=
  "session:" ++ token

/-- RedisManager.store_session (src/app.py:160-172): writes the session
token to user-id mapping with the session TTL. -/
def store_session (st : RedisState) (now : Int) (token userId : String) : RedisState :=
  redisSetex st now SESSION_DURATION (sessionKey token) userId

/-- RedisManager.get_session_user (src/app.py:174-182): returns the user id
for a token; the Python code returns user_id.decode() if user_id else None,
so an empty stored value (falsy bytes) is reported as None. -/
def get_session_user (st : RedisState) (now : Int) (token : String) : Option String :=
  match redisGet st now (sessionKey token) with
  | some v => if v = "" then none else some v
  | none => none

/-- RedisManager.invalidate_session (src/app.py:184-192): deletes the
session record. -/
def invalidate_session (st : RedisState) (token : String) : RedisState :=
  redisDel st (sessionKey token)

/-- Python str.split(' '), at the character-list level: splitting on a
single space, preserving empty fields. -/
def splitCh : List Char → List (List Char)
  | [] => [[]]
  | c :: rest =>
    if c = ' ' then [] :: splitCh rest
    else
      match splitCh rest with
      | h :: t => (c :: h) :: t
      | [] => [[c]]

/-- The token extraction performed by require_auth and logout
(src/app.py:265 and src/app.py:420): session_token.split(' ')[1]. -/
def extractToken (s : String) : String :=
  String.mk ((splitCh s.data).getD 1 [])

/-- The scheme check of require_auth (src/app.py:262):
session_token.startswith('Bearer '). -/
def bearerOk (s : String) : Bool :=
  "Bearer ".data.isPrefixOf s.data

/-- The logout endpoint (src/app.py:416-425), after require_auth has
accepted the request: it extracts the bearer token from the Authorization
header and invalidates the session record.  No other record is touched and
no upstream revoke endpoint is called. -/
def logout (st : RedisState) (authHeader : String) : RedisState :=
  invalidate_session st (extractToken authHeader)

theorem splitCh_bearer (l : List Char) :
    splitCh ("Bearer ".data ++ l) = "Bearer".data :: splitCh l := rfl

theorem splitCh_noSpace (l : List Char) (h : ∀ ch ∈ l, ch ≠ ' ') :
    splitCh l = [l] := by
  induction l with
  | nil => rfl
  | cons c rest ih =>
    have hc : c ≠ ' ' := h c (List.mem_cons_self c rest)
    have hrest := ih fun ch hch => h ch (List.mem_cons_of_mem c hch)
    simp [splitCh, hc, hrest]

theorem extractToken_bearer (token : String) (h : ∀ ch ∈ token.data, ch ≠ ' ') :
    extractToken ("Bearer " ++ token) = token := by
  obtain ⟨d⟩ := token
  show String.mk ((splitCh ("Bearer ".data ++ d)).getD 1 []) = String.mk d
  rw [splitCh_bearer, splitCh_noSpace d h]
  rfl

theorem sessionKey_ne_credsKey (t hs : String) :
    sessionKey t ≠ "user_creds:" ++ hs := by
  obtain ⟨dt⟩ := t
  obtain ⟨dh⟩ := hs
  intro he
  have h2 : some 's' = some 'u' := congrArg (fun s => s.data.head?) he
  exact absurd (Option.some.inj h2) (by decide)

/-- C4 as the code actually behaves (amended): logout unconditionally
deletes the local session record for the presented bearer token (no
upstream revoke call exists), so the token no longer resolves; the stored
credential record is not touched, so get_user_credentials is unchanged. -/
theorem logout_deletes_session_only (F : FernetCipher) (hashId : String → String)
    (st : RedisState) (now : Int) (token userId : String)
    (hns : ∀ ch ∈ token.data, ch ≠ ' ') :
    get_session_user (logout st ("Bearer " ++ token)) now token = none
    ∧ get_user_credentials F hashId (logout st ("Bearer " ++ token)) now userId
        = get_user_credentials F hashId st now userId := by
  unfold logout
  rw [extractToken_bearer token hns]
  constructor
  · simp [get_session_user, invalidate_session, redisDel, redisGet]
  · have hne : credsKey hashId userId ≠ sessionKey token :=
      fun he => absurd he.symm (sessionKey_ne_credsKey token (hashId userId))
    unfold get_user_credentials
    simp [invalidate_session, redisDel, redisGet, hne]

def loggedInState : RedisState :=
  store_session
    (store_user_credentials toyFernet (fun s => s) emptyRedis 0 "u" demoCreds)
    0 "tok" "u"

/-- C4 counterexample: after logout the session record is gone but the
credential record for the user is still returned, so a subsequent
credential lookup does not fail with AuthenticationRequired, contradicting
the claim that revoke deletes the locally stored credential record. -/
theorem logout_keeps_credentials_cex :
    get_session_user (logout loggedInState "Bearer tok") 1 "tok" = none
    ∧ get_user_credentials toyFernet (fun s => s) (logout loggedInState "Bearer tok")
        1 "u" = some demoCreds := by
  refine ⟨by decide, by decide⟩

/-- C4 witness for the amended theorem, on the same concrete state. -/
theorem logout_deletes_session_only_witness :
    get_session_user (logout loggedInState ("Bearer " ++ "tok")) 1 "tok" = none
    ∧ get_user_credentials toyFernet (fun s => s)
        (logout loggedInState ("Bearer " ++ "tok")) 1 "u"
        = get_user_credentials toyFernet (fun s => s) loggedInState 1 "u" :=
  logout_deletes_session_only toyFernet (fun s => s) loggedInState 1 "tok" "u"
    (by decide)

/-- The expired property of google.oauth2.credentials.Credentials: a
credential with no expiry never expires; one with an expiry is expired once
the wall clock reaches it.  (The library additionally subtracts a small
clock-skew margin, which does not affect credentials whose expiry is in the
past.) -/
def credExpired (now : Int) (c : Credentials) : Bool :=
  match c.expiry with
  | some e => decide (e ≤ now)
  | none => false

/-- Python truthiness of creds.refresh_token as tested on
src/mcp_server.py:76: None and the empty string are falsy. -/
def refreshTokenTruthy (c : Credentials) : Bool :=
  match c.refreshToken with
  | some r => decide (r ≠ "")
  | none => false

/-- The valid property of google.oauth2.credentials.Credentials, as used by
get_creds_from_context (src/mcp_server.py:102): the credential carries an
access token (always present in our data model, matching the spec's data
model) and is not expired. -/
def credValid (now : Int) (c : Credentials) : Bool :=
  !(credExpired now c)

/-- Model of the external OAuth token endpoint for refresh calls: given the
credential being refreshed, it either returns a new access token with a new
expiry, or fails (revoked/invalid refresh token). -/
structure TokenEndpoint where
  refreshResult : Credentials → Option (String × Int)

/-- creds.refresh(Request()) (src/mcp_server.py:79): on success the
credential is mutated in place with the new access token and expiry; on
failure an exception is raised (modelled as none). -/
def refreshCreds (ep : TokenEndpoint) (c : Credentials) : Option Credentials :=
  (ep.refreshResult c).map fun p => { c with token := p.1, expiry := some p.2 }

/-- The outcome of the credential_manager lifespan startup
(src/mcp_server.py:61-90): the credentials made available to tool handlers,
the token file contents afterwards, and how many refresh calls were made
against the token endpoint. -/
structure ManagerResult where
  creds : Option Credentials
  fileAfter : Option Credentials
  refreshCalls : Nat
deriving DecidableEq, Repr

/-- credential_manager (src/mcp_server.py:61-90): if the token file is
missing, yields no credentials; otherwise loads them and, when they are
expired and a refresh token is present, performs one refresh call — on
success the refreshed credential is written back to the same token file, on
failure the credentials are marked invalid (None) and the file is left as
it was. -/
def credential_manager (ep : TokenEndpoint) (now : Int)
    (file : Option Credentials) : ManagerResult :=
  match file with
  | none => { creds := none, fileAfter := none, refreshCalls := 0 }
  | some c =>
    if credExpired now c && refreshTokenTruthy c then
      match refreshCreds ep c with
      | some c2 => { creds := some c2, fileAfter := some c2, refreshCalls := 1 }
      | none => { creds := none, fileAfter := some c, refreshCalls := 1 }
    else { creds := some c, fileAfter := some c, refreshCalls := 0 }

/-- get_creds_from_context (src/mcp_server.py:99-107): raises (modelled as
an AuthenticationRequired error) when no credentials are available or they
are invalid. -/
def get_creds_from_context (now : Int) (r : Option Credentials) :
    Except AppError Credentials :=
  match r with
  | none => Except.error AppError.authenticationRequired
  | some c =>
    if credValid now c then Except.ok c else Except.error AppError.authenticationRequired

/-- The combined result of the refresh-on-read entry point. -/
structure GVCResult where
  cred : Except AppError Credentials
  fileAfter : Option Credentials
  refreshCalls : Nat
deriving Repr

/-- The spec's get_valid_credential, as realized by the code: the
credential_manager startup (load plus refresh-on-expiry plus re-persist)
followed by get_creds_from_context. -/
def get_valid_credential (ep : TokenEndpoint) (now : Int)
    (file : Option Credentials) : GVCResult :=
  let m := credential_manager ep now file
  { cred := get_creds_from_context now m.creds, fileAfter := m.fileAfter,
    refreshCalls := m.refreshCalls }

/-- C1: for a stored credential whose expiry is in the past and whose
refresh token is present, and whose refresh call against the token endpoint
succeeds with a future expiry, get_valid_credential performs exactly one
refresh call, returns the refreshed credential (whose expiry is in the
future), and re-persists it under the same storage key (the token file). -/
theorem getValidCredential_refreshes_expired (ep : TokenEndpoint) (now : Int)
    (c : Credentials) (e : Int) (t : String) (e2 : Int)
    (hexp : c.expiry = some e) (hpast : e ≤ now)
    (href : refreshTokenTruthy c = true)
    (hep : ep.refreshResult c = some (t, e2)) (hfut : now < e2) :
    (get_valid_credential ep now (some c)).refreshCalls = 1
    ∧ (get_valid_credential ep now (some c)).cred
        = Except.ok { c with token := t, expiry := some e2 }
    ∧ (∃ e3, ({ c with token := t, expiry := some e2 } : Credentials).expiry = some e3
        ∧ now < e3)
    ∧ (get_valid_credential ep now (some c)).fileAfter
        = some { c with token := t, expiry := some e2 } := by
  have hexpb : credExpired now c = true := by
    simp [credExpired, hexp, hpast]
  have hvalid : credValid now { c with token := t, expiry := some e2 } = true := by
    simp [credValid, credExpired]
    omega
  refine ⟨?_, ?_, ⟨e2, rfl, hfut⟩, ?_⟩ <;>
    simp [get_valid_credential, credential_manager, refreshCreds, hexpb, href, hep,
      get_creds_from_context, hvalid]

/-- C1 witness: a concrete expired, refreshable credential against a
concrete token endpoint. -/
theorem getValidCredential_refreshes_expired_witness :
    (get_valid_credential (TokenEndpoint.mk fun _ => some ("newtok", 100)) 10
        (some demoCreds)).refreshCalls = 1
    ∧ (get_valid_credential (TokenEndpoint.mk fun _ => some ("newtok", 100)) 10
        (some demoCreds)).cred
        = Except.ok { demoCreds with token := "newtok", expiry := some 100 } := by
  have h := getValidCredential_refreshes_expired
    (TokenEndpoint.mk fun _ => some ("newtok", 100)) 10 demoCreds 5 "newtok" 100
    (by decide) (by decide) (by decide) (by decide) (by decide)
  exact ⟨h.1, h.2.1⟩

/-- C2: assuming every refresh call against the token endpoint succeeds
with a future expiry, get_valid_credential fails — always with
AuthenticationRequired and without any refresh call — exactly when no
credential is stored or the stored credential is expired with no refresh
token present; in every other case it returns a credential. -/
theorem getValidCredential_fails_iff_noCredential (ep : TokenEndpoint) (now : Int)
    (hep : ∀ c, ∃ t e2, ep.refreshResult c = some (t, e2) ∧ now < e2)
    (file : Option Credentials) :
    ((file = none ∨ ∃ c, file = some c ∧ credExpired now c = true
        ∧ refreshTokenTruthy c = false) →
      (get_valid_credential ep now file).cred
          = Except.error AppError.authenticationRequired
        ∧ (get_valid_credential ep now file).refreshCalls = 0)
    ∧ (∀ c, file = some c →
        ¬(credExpired now c = true ∧ refreshTokenTruthy c = false) →
        ∃ cr, (get_valid_credential ep now file).cred = Except.ok cr) := by
  constructor
  · rintro (rfl | ⟨c, rfl, hexp, href⟩)
    · exact ⟨rfl, rfl⟩
    · constructor <;>
        simp [get_valid_credential, credential_manager, hexp, href,
          get_creds_from_context, credValid]
  · rintro c rfl hnot
    by_cases hexp : credExpired now c = true
    · have href : refreshTokenTruthy c = true := by
        cases h : refreshTokenTruthy c
        · exact absurd ⟨hexp, h⟩ hnot
        · rfl
      obtain ⟨t, e2, hres, hfut⟩ := hep c
      refine ⟨{ c with token := t, expiry := some e2 }, ?_⟩
      have hvalid : credValid now { c with token := t, expiry := some e2 } = true := by
        simp [credValid, credExpired]
        omega
      simp [get_valid_credential, credential_manager, refreshCreds, hexp, href, hres,
        get_creds_from_context, hvalid]
    · refine ⟨c, ?_⟩
      have hvalid : credValid now c = true := by
        simp [credValid]
        simpa using hexp
      simp [get_valid_credential, credential_manager, hexp,
        get_creds_from_context, hvalid]

def deadCreds : Credentials :=
  { token := "t3", refreshToken := none, tokenUri := none, clientId := none,
    clientSecret := none, scopes := [], expiry := some 5 }

/-- C2 witness: the missing-file case and the expired-without-refresh-token
case both fail without a refresh call, against a concrete always-succeeding
endpoint. -/
theorem getValidCredential_fails_iff_noCredential_witness :
    ((get_valid_credential (TokenEndpoint.mk fun _ => some ("n", 100)) 10 none).cred
        = Except.error AppError.authenticationRequired
      ∧ (get_valid_credential (TokenEndpoint.mk fun _ => some ("n", 100)) 10
          none).refreshCalls = 0)
    ∧ ((get_valid_credential (TokenEndpoint.mk fun _ => some ("n", 100)) 10
          (some deadCreds)).cred
        = Except.error AppError.authenticationRequired
      ∧ (get_valid_credential (TokenEndpoint.mk fun _ => some ("n", 100)) 10
          (some deadCreds)).refreshCalls = 0) := by
  have hep : ∀ c, ∃ t e2,
      (TokenEndpoint.mk fun _ => some ("n", (100 : Int))).refreshResult c
        = some (t, e2) ∧ (10 : Int) < e2 :=
    fun _ => ⟨"n", 100, rfl, by decide⟩
  have h1 := (getValidCredential_fails_iff_noCredential
    (TokenEndpoint.mk fun _ => some ("n", 100)) 10 hep none).1 (Or.inl rfl)
  have h2 := (getValidCredential_fails_iff_noCredential
    (TokenEndpoint.mk fun _ => some ("n", 100)) 10 hep (some deadCreds)).1
    (Or.inr ⟨deadCreds, rfl, by decide, by decide⟩)
  exact ⟨h1, h2⟩

/-- require_auth (src/app.py:257-275): rejects a missing Authorization
header or one whose value does not start with the Bearer scheme, extracts
the token as session_token.split(' ')[1], resolves it through
get_session_user, and rejects when nothing (or a falsy user id) comes back;
otherwise the request proceeds with the resolved user id.  The function is
read-only: it returns no modified store. -/
def require_auth (st : RedisState) (now : Int) (authHeader : Option String) :
    Except AppError String :=
  match authHeader with
  | none => Except.error AppError.unauthorized
  | some s =>
    if bearerOk s then
      match get_session_user st now (extractToken s) with
      | some userId => Except.ok userId
      | none => Except.error AppError.unauthorized
    else Except.error AppError.unauthorized

/-- C8 as the code actually behaves (amended): authentication fails with
Unauthorized when the header is missing, when the value does not start with
the Bearer scheme, and when the token does not resolve (unknown, expired,
or stored with an empty user id — the code treats a falsy user id as
unresolved); when the token is within its TTL and its stored user id is
non-empty, authentication succeeds and returns exactly that user id. -/
theorem requireAuth_cases (st : RedisState) (now : Int) :
    require_auth st now none = Except.error AppError.unauthorized
    ∧ (∀ s, bearerOk s = false →
        require_auth st now (some s) = Except.error AppError.unauthorized)
    ∧ (∀ token, (∀ ch ∈ token.data, ch ≠ ' ') →
        (get_session_user st now token = none →
          require_auth st now (some ("Bearer " ++ token))
            = Except.error AppError.unauthorized)
        ∧ (∀ userId, redisGet st now (sessionKey token) = some userId → userId ≠ "" →
            require_auth st now (some ("Bearer " ++ token)) = Except.ok userId)) := by
  have hbok : ∀ token : String, bearerOk ("Bearer " ++ token) = true := by
    intro token
    obtain ⟨d⟩ := token
    show "Bearer ".data.isPrefixOf ("Bearer ".data ++ d) = true
    rw [List.isPrefixOf_iff_prefix]
    exact List.prefix_append "Bearer ".data d
  refine ⟨rfl, ?_, ?_⟩
  · intro s hs
    simp [require_auth, hs]
  · intro token hns
    constructor
    · intro hres
      simp [require_auth, hbok token, extractToken_bearer token hns, hres]
    · intro userId hrec hne
      have hres : get_session_user st now token = some userId := by
        simp [get_session_user, hrec, hne]
      simp [require_auth, hbok token, extractToken_bearer token hns, hres]

def sessionState : RedisState :=
  store_session emptyRedis 0 "tok" "alice"

/-- C8 witness: on a concrete store, the missing header, a Basic-scheme
header and an unknown token are rejected, and a live token resolves to the
user id it was created with. -/
theorem requireAuth_cases_witness :
    require_auth sessionState 1 none = Except.error AppError.unauthorized
    ∧ require_auth sessionState 1 (some "Basic abc")
        = Except.error AppError.unauthorized
    ∧ require_auth sessionState 1 (some ("Bearer " ++ "other"))
        = Except.error AppError.unauthorized
    ∧ require_auth sessionState 1 (some ("Bearer " ++ "tok")) = Except.ok "alice" := by
  have h := requireAuth_cases sessionState 1
  refine ⟨h.1, h.2.1 "Basic abc" (by decide), ?_, ?_⟩
  · exact (h.2.2 "other" (by decide)).1 (by decide)
  · exact (h.2.2 "tok" (by decide)).2 "alice" (by decide) (by decide)

def emptyUserSession : RedisState :=
  store_session emptyRedis 0 "tok" ""

/-- C8 counterexample: a session record created with the empty user id is
present and within its TTL, yet authentication with its token fails,
contradicting the claim that a token within its TTL always succeeds and
returns the user id the session was created with. -/
theorem requireAuth_emptyUser_cex :
    redisGet emptyUserSession 1 (sessionKey "tok") = some ""
    ∧ require_auth emptyUserSession 1 (some "Bearer tok")
        = Except.error AppError.unauthorized := by
  refine ⟨by decide, by rfl⟩

/- A Gmail API message payload node (the dictionaries walked by
get_email_body, src/mcp_server.py:109-121): every node carries a mimeType
and a body that may hold base64url data; a node either has a parts key
(multi, possibly with an empty list) or not (leaf). -/
mutual

inductive MimePart where
  | leaf (mimeType : String) (bodyData : Option String) : MimePart
  | multi (mimeType : String) (bodyData : Option String) (children : MimeList) : MimePart

inductive MimeList where
  | nil : MimeList
  | cons (head : MimePart) (tail : MimeList) : MimeList

end

def mimeTypeOf : MimePart → String
  | .leaf mt _ => mt
  | .multi mt _ _ => mt

def bodyDataOf : MimePart → Option String
  | .leaf _ bd => bd
  | .multi _ bd _ => bd

/- get_email_body (src/mcp_server.py:109-121), parametrized by the
composite base64.urlsafe_b64decode + utf-8 decode (an external library
call).  In the parts loop each part is first checked directly; otherwise
the walk recurses, and a falsy recursive result (None or the empty string,
the Python test if body:) lets the loop continue.  A payload without a
parts key is checked itself. -/
mutual

def getEmailBody (dec : String → String) : MimePart → Option String
  | .leaf mt bd => if mt = "text/plain" then bd.map dec else none
  | .multi _ _ cs => getEmailBodyScan dec cs

def getEmailBodyScan (dec : String → String) : MimeList → Option String
  | .nil => none
  | .cons p rest =>
    if mimeTypeOf p = "text/plain" ∧ (bodyDataOf p).isSome then (bodyDataOf p).map dec
    else
      match getEmailBody dec p with
      | some b => if b = "" then getEmailBodyScan dec rest else some b
      | none => getEmailBodyScan dec rest

end

/- The claim's reading of get_email_body: return the decoded data of the
first part whose mimeType is text/plain and whose body contains data, found
by depth-first left-to-right traversal of the parts tree, falling back to
the top-level payload itself when it has no parts; None when no such part
exists. -/
mutual

def specBody (dec : String → String) : MimePart → Option String
  | .leaf mt bd => if mt = "text/plain" ∧ bd.isSome then bd.map dec else none
  | .multi _ _ cs => specScan dec cs

def specScan (dec : String → String) : MimeList → Option String
  | .nil => none
  | .cons p rest =>
    match specCheck dec p with
    | some b => some b
    | none => specScan dec rest

def specCheck (dec : String → String) : MimePart → Option String
  | .leaf mt bd => if mt = "text/plain" ∧ bd.isSome then bd.map dec else none
  | .multi mt bd cs =>
    if mt = "text/plain" ∧ bd.isSome then bd.map dec else specScan dec cs

end

def checkBD (dec : String → String) : Option String → Bool
  | none => true
  | some d => decide (dec d ≠ "")

/- Every data field in the tree decodes to a non-empty string. -/
mutual

def dataNonempty (dec : String → String) : MimePart → Bool
  | .leaf _ bd => checkBD dec bd
  | .multi _ bd cs => checkBD dec bd && dataNonemptyList dec cs

def dataNonemptyList (dec : String → String) : MimeList → Bool
  | .nil => true
  | .cons p rest => dataNonempty dec p && dataNonemptyList dec rest

end

theorem specCheck_of_notMatch (dec : String → String) (p : MimePart)
    (h : ¬(mimeTypeOf p = "text/plain" ∧ (bodyDataOf p).isSome)) :
    specCheck dec p = specBody dec p := by
  cases p with
  | leaf mt bd => rfl
  | multi mt bd cs =>
    by_cases hmt : mt = "text/plain"
    · have hbd : bd = none := by
        rcases hb : bd with _ | d
        · rfl
        · exact absurd ⟨hmt, by rw [hb]; rfl⟩ h
      subst hbd
      simp [specCheck, specBody, hmt]
    · simp [specCheck, specBody, hmt]

theorem dataNonempty_checkBD (dec : String → String) (p : MimePart)
    (h : dataNonempty dec p = true) : checkBD dec (bodyDataOf p) = true := by
  cases p with
  | leaf mt bd => exact h
  | multi mt bd cs => exact (Bool.and_eq_true_iff.mp h).1

/-- C9 as the code actually behaves (amended): provided every data field in
the payload decodes to a non-empty string, get_email_body returns exactly
the claim's value — the decoded data of the first text/plain part with
data, in depth-first left-to-right order over the parts tree, with the
top-level payload itself checked only when it has no parts, and None when
no such part exists.  (Without that proviso a nested matching part whose
decoded body is empty is skipped, because the loop treats the falsy result
as not found.) -/
theorem getEmailBody_eq_dfsFirst (dec : String → String) (p : MimePart)
    (h : dataNonempty dec p = true) :
    getEmailBody dec p = specBody dec p := by
  have main : ∀ q : MimePart, dataNonempty dec q = true →
      getEmailBody dec q = specBody dec q
        ∧ ∀ b, getEmailBody dec q = some b → b ≠ "" := by
    intro q
    refine @MimePart.rec
      (fun q => dataNonempty dec q = true →
        getEmailBody dec q = specBody dec q
          ∧ ∀ b, getEmailBody dec q = some b → b ≠ "")
      (fun l => dataNonemptyList dec l = true →
        getEmailBodyScan dec l = specScan dec l
          ∧ ∀ b, getEmailBodyScan dec l = some b → b ≠ "")
      ?_ ?_ ?_ ?_ q
    · intro mt bd hq
      constructor
      · by_cases hmt : mt = "text/plain"
        · cases bd with
          | none => simp [getEmailBody, specBody, hmt]
          | some d => simp [getEmailBody, specBody, hmt]
        · simp [getEmailBody, specBody, hmt]
      · intro b hb
        by_cases hmt : mt = "text/plain"
        · cases bd with
          | none => simp [getEmailBody, hmt] at hb
          | some d =>
            simp [getEmailBody, hmt] at hb
            have hc : dec d ≠ "" := by simpa [dataNonempty, checkBD] using hq
            rw [← hb]
            exact hc
        · simp [getEmailBody, hmt] at hb
    · intro mt bd cs ih hq
      have h2 : dataNonemptyList dec cs = true :=
        (Bool.and_eq_true_iff.mp (by simpa [dataNonempty] using hq)).2
      obtain ⟨e1, e2⟩ := ih h2
      exact ⟨by simpa [getEmailBody, specBody] using e1,
        by simpa [getEmailBody] using e2⟩
    · intro _
      exact ⟨rfl, by intro b hb; simp [getEmailBodyScan] at hb⟩
    · intro p2 rest ihp ihr hq
      obtain ⟨hp, hr⟩ := Bool.and_eq_true_iff.mp (by simpa [dataNonemptyList] using hq)
      by_cases hm : mimeTypeOf p2 = "text/plain" ∧ (bodyDataOf p2).isSome
      · obtain ⟨hmt, hbd⟩ := hm
        obtain ⟨d, hd⟩ := Option.isSome_iff_exists.mp hbd
        have hcheck : specCheck dec p2 = some (dec d) := by
          cases p2 with
          | leaf mt2 bd2 =>
            simp [mimeTypeOf] at hmt
            simp [bodyDataOf] at hd
            simp [specCheck, hmt, hd]
          | multi mt2 bd2 cs2 =>
            simp [mimeTypeOf] at hmt
            simp [bodyDataOf] at hd
            simp [specCheck, hmt, hd]
        have hdir : getEmailBodyScan dec (MimeList.cons p2 rest) = some (dec d) := by
          simp [getEmailBodyScan, hmt, hd]
        have hspecs : specScan dec (MimeList.cons p2 rest) = some (dec d) := by
          simp [specScan, hcheck]
        refine ⟨by rw [hdir, hspecs], ?_⟩
        intro b hb
        rw [hdir] at hb
        have hc : dec d ≠ "" := by
          have hcb := dataNonempty_checkBD dec p2 hp
          rw [hd] at hcb
          simpa [checkBD] using hcb
        rw [← Option.some.inj hb]
        exact hc
      · have hcp : specCheck dec p2 = specBody dec p2 := specCheck_of_notMatch dec p2 hm
        obtain ⟨ipeq, ipne⟩ := ihp hp
        obtain ⟨ireq, irne⟩ := ihr hr
        constructor
        · cases hgb : getEmailBody dec p2 with
          | some b =>
            have hbne : b ≠ "" := ipne b hgb
            have hby : specBody dec p2 = some b := by rw [← ipeq, hgb]
            simp [getEmailBodyScan, specScan, hm, hgb, hbne, hcp, hby]
          | none =>
            have hby : specBody dec p2 = none := by rw [← ipeq, hgb]
            simp [getEmailBodyScan, specScan, hm, hgb, hcp, hby, ireq]
        · intro b hb
          cases hgb : getEmailBody dec p2 with
          | some b2 =>
            have hbne : b2 ≠ "" := ipne b2 hgb
            simp [getEmailBodyScan, hm, hgb, hbne] at hb
            exact hb ▸ hbne
          | none =>
            simp [getEmailBodyScan, hm, hgb] at hb
            exact irne b hb
  exact (main p h).1

/-- The value of one base64url alphabet character
(A-Z, a-z, 0-9, '-', '_'). -/
def b64Val (c : Char) : Nat :=
  if 'A' ≤ c ∧ c ≤ 'Z' then c.toNat - 65
  else if 'a' ≤ c ∧ c ≤ 'z' then c.toNat - 71
  else if '0' ≤ c ∧ c ≤ '9' then c.toNat + 4
  else if c = '-' then 62
  else if c = '_' then 63
  else 0

/-- base64url decoding of a padded character stream into bytes. -/
def b64DecodeBytes : List Char → List Nat
  | a :: b :: c :: d :: rest =>
    let n := b64Val a * 262144 + b64Val b * 4096 + b64Val c * 64 + b64Val d
    if d = '=' then
      if c = '=' then [n / 65536 % 256]
      else [n / 65536 % 256, n / 256 % 256]
    else (n / 65536 % 256) :: (n / 256 % 256) :: (n % 256) :: b64DecodeBytes rest
  | _ => []

/-- The concrete decode used in the get_email_body source
(base64.urlsafe_b64decode followed by bytes.decode of utf-8), exact for
payloads whose decoded bytes are ASCII — which covers every payload in this
development. -/
def pyDecode (s : String) : String :=
  String.mk ((b64DecodeBytes s.data).map fun n => Char.ofNat n)

def nestedEmptyMail : MimePart :=
  MimePart.multi "multipart/mixed" none
    (MimeList.cons
      (MimePart.multi "multipart/alternative" none
        (MimeList.cons (MimePart.leaf "text/plain" (some "")) MimeList.nil))
      (MimeList.cons (MimePart.leaf "text/plain" (some "aGk=")) MimeList.nil))

/-- C9 counterexample: in this payload the first text/plain part with data
(in depth-first left-to-right order) is the nested one whose data decodes
to the empty string, so the claim requires the result to be that empty
string; the code instead skips it (the falsy-body test) and returns the
body of a later part. -/
theorem getEmailBody_skips_empty_cex :
    specBody pyDecode nestedEmptyMail = some ""
    ∧ getEmailBody pyDecode nestedEmptyMail = some "hi" := by
  constructor
  · simp [nestedEmptyMail, specBody, specScan, specCheck, pyDecode, b64DecodeBytes]
  · simp [nestedEmptyMail, getEmailBody, getEmailBodyScan, mimeTypeOf, bodyDataOf,
      pyDecode, b64DecodeBytes]
    decide

def simpleMail : MimePart :=
  MimePart.multi "multipart/alternative" none
    (MimeList.cons (MimePart.leaf "text/plain" (some "aGk=")) MimeList.nil)

/-- C9 witness: a concrete payload with non-empty decoded data, on which
the code agrees with the claim's depth-first-first-match semantics. -/
theorem getEmailBody_eq_dfsFirst_witness :
    dataNonempty pyDecode simpleMail = true
    ∧ getEmailBody pyDecode simpleMail = specBody pyDecode simpleMail := by
  have hd : dataNonempty pyDecode simpleMail = true := by
    simp [simpleMail, dataNonempty, dataNonemptyList, checkBD, pyDecode, b64DecodeBytes]
    decide
  exact ⟨hd, getEmailBody_eq_dfsFirst pyDecode simpleMail hd⟩

/-- The start or end object of a fetched calendar event: the dateTime key
(updated in place by update_calendar_event), the timeZone key, and any
other keys of the object. -/
structure EventTime where
  dateTime : Option String
  timeZone : Option String
  extra : List (String × String)
deriving DecidableEq, Repr

/-- A fetched calendar event (the dictionary returned by the events().get
call in src/mcp_server.py:357): the fields update_calendar_event may touch,
plus its id and every other field, kept abstractly as key-value pairs. -/
structure CalEvent where
  id : String
  summary : Option String
  description : Option String
  startTime : EventTime
  endTime : EventTime
  extra : List (String × String)
deriving DecidableEq, Repr

/-- EventUpdateDetails (src/mcp_server.py:35-39) after
model_dump(exclude_unset=True) (src/mcp_server.py:360): the outer Option is
key presence in the dumped dictionary (none = field not provided), the
inner Option is the provided value (which may itself be null). -/
structure EventUpdateDetails where
  summary : Option (Option String)
  start_time : Option (Option String)
  end_time : Option (Option String)
  description : Option (Option String)
deriving DecidableEq, Repr

/-- update_calendar_event (src/mcp_server.py:344-373): the fetched event is
mutated in place — dateTime of start, dateTime of end, summary and
description are each overwritten only when the corresponding key is present
in the dumped update — and the resulting dictionary is the body sent to the
update call (whose eventId is the unchanged id of the event). -/
def update_calendar_event (e : CalEvent) (u : EventUpdateDetails) : CalEvent :=
  let e1 := match u.start_time with
    | some v => { e with startTime := { e.startTime with dateTime := v } }
    | none => e
  let e2 := match u.end_time with
    | some v => { e1 with endTime := { e1.endTime with dateTime := v } }
    | none => e1
  let e3 := match u.summary with
    | some v => { e2 with summary := v }
    | none => e2
  match u.description with
  | some v => { e3 with description := v }
  | none => e3

/-- C10: a partial update changes exactly the fields present in the dumped
update details; the id, every other field of the fetched event, the
timeZone and remaining keys of start and end, and every field left unset
are passed through unchanged in the body sent to the update call. -/
theorem updateCalendarEvent_frame (e : CalEvent) (u : EventUpdateDetails) :
    (update_calendar_event e u).id = e.id
    ∧ (update_calendar_event e u).extra = e.extra
    ∧ (update_calendar_event e u).startTime.timeZone = e.startTime.timeZone
    ∧ (update_calendar_event e u).startTime.extra = e.startTime.extra
    ∧ (update_calendar_event e u).endTime.timeZone = e.endTime.timeZone
    ∧ (update_calendar_event e u).endTime.extra = e.endTime.extra
    ∧ (u.summary = none → (update_calendar_event e u).summary = e.summary)
    ∧ (u.description = none →
        (update_calendar_event e u).description = e.description)
    ∧ (u.start_time = none →
        (update_calendar_event e u).startTime.dateTime = e.startTime.dateTime)
    ∧ (u.end_time = none →
        (update_calendar_event e u).endTime.dateTime = e.endTime.dateTime)
    ∧ (∀ v, u.summary = some v → (update_calendar_event e u).summary = v)
    ∧ (∀ v, u.description = some v → (update_calendar_event e u).description = v)
    ∧ (∀ v, u.start_time = some v →
        (update_calendar_event e u).startTime.dateTime = v)
    ∧ (∀ v, u.end_time = some v →
        (update_calendar_event e u).endTime.dateTime = v) := by
  obtain ⟨us, ust, uet, ud⟩ := u
  cases us <;> cases ust <;> cases uet <;> cases ud <;>
    simp [update_calendar_event]

def demoEvent : CalEvent :=
  { id := "ev1", summary := some "Old", description := some "Notes",
    startTime := { dateTime := some "2025-07-05T15:00:00",
                   timeZone := some "Europe/Rome", extra := [] },
    endTime := { dateTime := some "2025-07-05T16:00:00",
                 timeZone := some "Europe/Rome", extra := [] },
    extra := [("status", "confirmed")] }

def demoUpdate : EventUpdateDetails :=
  { summary := some (some "New"), start_time := none, end_time := none,
    description := none }

/-- C10 witness: an update setting only the summary keeps the id, the start
timeZone and the description of a concrete event, and changes its
summary. -/
theorem updateCalendarEvent_frame_witness :
    (update_calendar_event demoEvent demoUpdate).id = demoEvent.id
    ∧ (update_calendar_event demoEvent demoUpdate).startTime.timeZone
        = demoEvent.startTime.timeZone
    ∧ (update_calendar_event demoEvent demoUpdate).description
        = demoEvent.description
    ∧ (update_calendar_event demoEvent demoUpdate).summary = some "New" := by
  obtain ⟨h1, h2, h3, h4, h5, h6, h7, h8, h9, h10, h11, h12, h13, h14⟩ :=
    updateCalendarEvent_frame demoEvent demoUpdate
  exact ⟨h1, h3, h8 rfl, h11 (some "New") rfl⟩
